import Mathlib

/-!
Shallow embedding of the afqueue playback core (src/player.rs, src/events.rs,
src/main.rs) and proofs about it.

Conventions used throughout:
- Rust machine integers are modelled as `Nat`/`Int` (`u32` packet counts as
  `Nat`, the `i64` packet cursor as `Int`); none of the verified properties
  hinge on wrap-around, and debug Rust would abort on overflow rather than
  wrap.
- Calls into the native audio engine and the kernel are modelled by oracle
  values (`Except` results) supplied to each invocation; the Lean functions
  mirror, branch for branch, what the Rust code does with those results.
- `f32` quantities that the claims only compare or select (gain fractions,
  meter powers) are modelled as `ℚ`; for the volume gain the Rust computation
  `volume as f32 / 16.0` is exact for every reachable `volume ∈ 0..=16`, so
  the rational model is faithful.
-/

namespace Afqueue

/-- Events, from `src/events.rs` (`enum Event`). -/
inductive Event
  | NextTrackKeyPressed
  | PauseKeyPressed
  | ExitKeyPressed
  | VolumeUpKeyPressed
  | VolumeDownKeyPressed
  | PlaybackStarted
  | PlaybackFinished
  | UITick
  | TerminalResized
deriving DecidableEq, Repr

/-- From `src/ffi/audio_toolbox.rs`: status returned when enqueueing on a
resetting or stopping queue. -/
def AUDIO_QUEUE_ERROR_ENQUEUE_DURING_RESET : Int := -66632

/-- From `src/player.rs`: the run-state property value meaning stopped. -/
def AUDIO_QUEUE_RUN_STATE_STOPPED : Nat := 0

/-- Mutable state of `AudioCallbackHandler` (src/player.rs). The opaque
`playback_file` handle and the `notifier` channel handle are not data the
verified transitions read or write, so they are not carried here; the file
reads and channel triggers they mediate are recorded as actions instead. -/
structure AudioCallbackHandler where
  is_vbr : Bool
  packets_per_buffer : Nat
  current_packet : Int
  finished : Bool
deriving DecidableEq, Repr

/-- Oracle results of the two fallible native calls a single
`handle_buffer` invocation can make: `audio_file_read_packet_data`
(error status or the number of packets actually read) and
`audio_queue_enqueue_buffer`. -/
structure BufferCallEnv where
  read_result : Except Int Nat
  enqueue_result : Except Int Unit
deriving Repr

/-- Externally visible actions a `handle_buffer` invocation performs, in
order: the file read (recording the starting packet, requested packet count
and whether packet descriptions are supplied, i.e. the VBR branch), a stop
request on the audio queue (with its immediate flag), and an attempt to
enqueue the refilled buffer. -/
inductive QueueAction
  | fileRead (from_packet : Int) (packets : Nat) (vbr : Bool)
  | stop (immediate : Bool)
  | enqueueAttempt
deriving DecidableEq, Repr

/-- `AudioCallbackHandler::handle_buffer` (src/player.rs lines 263-310).
Returns the updated handler state and the list of actions performed.
The `expect` on a failed stop request aborts after the stop request has
already been issued and the state already latched, so it does not affect
either component. -/
def handle_buffer (s : AudioCallbackHandler) (env : BufferCallEnv) :
    AudioCallbackHandler × List QueueAction :=
  if s.finished then (s, [])
  else
    let read_action := QueueAction.fileRead s.current_packet s.packets_per_buffer s.is_vbr
    match env.read_result with
    | Except.error _ => ({ s with finished := true }, [read_action])
    | Except.ok packets_read =>
      if packets_read = 0 then
        ({ s with finished := true }, [read_action, QueueAction.stop false])
      else
        match env.enqueue_result with
        | Except.ok _ =>
            ({ s with current_packet := s.current_packet + (packets_read : Int) },
             [read_action, QueueAction.enqueueAttempt])
        | Except.error code =>
            if code = AUDIO_QUEUE_ERROR_ENQUEUE_DURING_RESET then
              ({ s with finished := true }, [read_action, QueueAction.enqueueAttempt])
            else
              ({ s with finished := true }, [read_action, QueueAction.enqueueAttempt])

/-- A sequence of `handle_buffer` invocations, each with its own oracle
results; returns the final handler state and all actions performed. -/
def run_buffer_calls : AudioCallbackHandler → List BufferCallEnv →
    AudioCallbackHandler × List QueueAction
  | s, [] => (s, [])
  | s, env :: rest =>
      let step := handle_buffer s env
      let next := run_buffer_calls step.1 rest
      (next.1, step.2 ++ next.2)

/-- Outcome of one run-state property-change callback: either an event was
signalled through the cross-thread channel, or the callback thread panicked. -/
inductive RunStateOutcome
  | signalled (e : Event)
  | panicked
deriving DecidableEq, Repr

/-- `AudioCallbackHandler::handle_running_state_change` (src/player.rs lines
312-328). `run_state` is the oracle result of `audio_queue_read_run_state`;
`notify_ok` models whether the `CallbackNotifier` trigger call succeeds (its
failure hits an `expect`, i.e. a panic). A failed property read hits the
`Err(error) => panic!` arm. -/
def handle_running_state_change (run_state : Except Int Nat) (notify_ok : Bool) :
    RunStateOutcome :=
  match run_state with
  | Except.ok state =>
      if state = AUDIO_QUEUE_RUN_STATE_STOPPED then
        if notify_ok then RunStateOutcome.signalled Event.PlaybackFinished
        else RunStateOutcome.panicked
      else
        if notify_ok then RunStateOutcome.signalled Event.PlaybackStarted
        else RunStateOutcome.panicked
  | Except.error _ => RunStateOutcome.panicked

/-- Events signalled by a sequence of run-state observations within one
playback session, with the channel triggers succeeding (a failed trigger
panics, aborting the sequence). The handler keeps no state between
observations: `AudioCallbackHandler` has no already-notified latch. -/
def run_state_signals : List (Except Int Nat) → List Event
  | [] => []
  | obs :: rest =>
      match handle_running_state_change obs true with
      | RunStateOutcome.signalled e => e :: run_state_signals rest
      | RunStateOutcome.panicked => []

/-- From `src/player.rs`: volume step range is `0..=MAX_VOLUME`. -/
def MAX_VOLUME : Nat := 16

/-- From `src/player.rs`: one increment or decrement moves one step. -/
def VOLUME_STEP : Nat := 1

/-- `PlaybackVolume` (src/player.rs lines 403-423): a step count in
`0..=MAX_VOLUME` (Rust `usize`, modelled as `Nat`). -/
structure PlaybackVolume where
  volume : Nat
deriving DecidableEq, Repr

/-- `PlaybackVolume::new`: starts at the maximum. -/
def PlaybackVolume.new : PlaybackVolume := { volume := MAX_VOLUME }

/-- `PlaybackVolume::increment`: `min(volume + VOLUME_STEP, MAX_VOLUME)`. -/
def PlaybackVolume.increment (v : PlaybackVolume) : PlaybackVolume :=
  { volume := min (v.volume + VOLUME_STEP) MAX_VOLUME }

/-- `PlaybackVolume::decrement`: `max(volume.saturating_sub(VOLUME_STEP), 0)`;
Nat subtraction is saturating, matching `saturating_sub`. -/
def PlaybackVolume.decrement (v : PlaybackVolume) : PlaybackVolume :=
  { volume := max (v.volume - VOLUME_STEP) 0 }

/-- `PlaybackVolume::gain`: `volume as f32 / MAX_VOLUME as f32`, exact in
`f32` for every `volume ∈ 0..=16`, modelled as the rational `volume / 16`. -/
def PlaybackVolume.gain (v : PlaybackVolume) : ℚ := (v.volume : ℚ) / (MAX_VOLUME : ℚ)

/-- The two assertions guarding `AudioFilePlayer::set_volume`
(src/player.rs lines 369-375): `gain >= 0.0` and `gain <= 1.0`. -/
def set_volume_assertions_hold (v : PlaybackVolume) : Prop :=
  0 ≤ v.gain ∧ v.gain ≤ 1

/-- A volume transport operation, as issued by the control loop. -/
inductive VolumeOp
  | increment
  | decrement
deriving DecidableEq, Repr

/-- Apply a sequence of increment/decrement operations in order. -/
def apply_volume_ops (v : PlaybackVolume) : List VolumeOp → PlaybackVolume
  | [] => v
  | VolumeOp.increment :: rest => apply_volume_ops v.increment rest
  | VolumeOp.decrement :: rest => apply_volume_ops v.decrement rest

/-- The level-pair computation of `AudioFilePlayer::get_meter_level`
(src/player.rs lines 377-387), applied to the per-channel `average_power`
readings of the session meter state after a successful property read:
`(levels.next(), levels.next())` matched as one channel duplicated, two or
more channels giving the first two, and the unreachable empty case giving
zeros. -/
def get_meter_level (average_powers : List ℚ) : ℚ × ℚ :=
  match average_powers with
  | [] => (0, 0)
  | [p] => (p, p)
  | p1 :: p2 :: _ => (p1, p2)

/-- From `src/ffi/kqueue.rs` / `src/events.rs`: kqueue identifiers used by the
event queue. -/
def STDIN_FILE_NUM : Nat := 0

/-- User-event ident for playback started (src/events.rs). -/
def AUDIO_QUEUE_PLAYBACK_STARTED : Nat := 39

/-- User-event ident for playback finished (src/events.rs). -/
def AUDIO_QUEUE_PLAYBACK_FINISHED : Nat := 40

/-- Timer ident for the UI tick (src/events.rs). -/
def UI_TIMER_TICK : Nat := 41

/-- Read-readiness filter (src/ffi/kqueue.rs). -/
def EVFILT_READ : Int := -1

/-- Timer filter (src/ffi/kqueue.rs). -/
def EVFILT_TIMER : Int := -7

/-- User-event filter (src/ffi/kqueue.rs). -/
def EVFILT_USER : Int := -10

/-- Signal filter; referenced by src/events.rs, declaration not under src/
(standard macOS header value). -/
def EVFILT_SIGNAL : Int := -6

/-- Window-change signal number; referenced by src/events.rs, declaration not
under src/ (standard macOS header value). -/
def SIGWINCH : Nat := 28

/-- The fields of a received `Kevent` that `EventQueue::next_event` consults
(src/ffi/kqueue.rs, src/events.rs): the identifier and the filter. -/
structure Kevent where
  ident : Nat
  filter : Int
deriving DecidableEq, Repr

/-- `InputReader` (src/events.rs): the unconsumed slice
`buffer[next..filled]` of the stdin byte buffer. -/
structure InputReader where
  buffer : List Char
deriving DecidableEq, Repr

/-- `KQueueReader` (src/events.rs): the unconsumed slice
`buffer[next..filled]` of the kevent buffer. -/
structure KQueueReader where
  buffer : List Kevent
deriving DecidableEq, Repr

/-- `EventQueue` buffering state (src/events.rs). -/
structure EventQueueState where
  input_reader : InputReader
  queue_reader : KQueueReader
deriving DecidableEq, Repr

/-- Oracle results of the blocking syscalls `next_event` can make, consumed
in call order: each blocking `kevent` wait either fails with an errno or
delivers a batch of events, and each `read` of stdin either fails with an
errno or delivers the bytes read (possibly none, on spurious readiness). -/
structure SyscallEnv where
  kevent_results : List (Except Int (List Kevent))
  read_results : List (Except Int (List Char))
deriving Repr

/-- Key-to-event mapping inside `EventQueue::next_event` (src/events.rs
lines 46-53); unknown bytes map to nothing and are discarded. -/
def char_event : Char → Option Event
  | 'n' => some Event.NextTrackKeyPressed
  | 'q' => some Event.ExitKeyPressed
  | 'p' => some Event.PauseKeyPressed
  | ']' => some Event.VolumeUpKeyPressed
  | '[' => some Event.VolumeDownKeyPressed
  | _ => none

/-- Outcome of `EventQueue::next_event`: an event returned to the caller
(with the resulting buffer state and remaining oracle), a panic raised by
`KQueueReader::read` or `InputReader::fill_buffer` on a failed syscall
(the Rust signature `fn next_event(&mut self) -> Event` has no error
channel), or blocking with the supplied oracle exhausted. -/
inductive NextEventOutcome
  | event (e : Event) (queue : EventQueueState) (env : SyscallEnv)
  | panicked (code : Int)
  | blocked
deriving Repr

/-- `EventQueue::next_event` (src/events.rs lines 35-70). The `fuel`
argument bounds the number of loop iterations so the definition is total;
every claim is evaluated with enough fuel for its oracle. Each iteration:
take a buffered stdin char and return its event (or loop on an unknown
byte); otherwise take a buffered kevent and dispatch on (ident, filter),
refilling the stdin buffer on read-readiness; otherwise perform the
blocking `kevent` wait, panicking if it fails. -/
def next_event : Nat → EventQueueState → SyscallEnv → NextEventOutcome
  | 0, _, _ => NextEventOutcome.blocked
  | Nat.succ fuel, s, env =>
    match s.input_reader.buffer with
    | c :: input_rest =>
        let s2 := { s with input_reader := { buffer := input_rest } }
        match char_event c with
        | some e => NextEventOutcome.event e s2 env
        | none => next_event fuel s2 env
    | [] =>
      match s.queue_reader.buffer with
      | k :: kevent_rest =>
          let s2 := { s with queue_reader := { buffer := kevent_rest } }
          if k.ident = STDIN_FILE_NUM ∧ k.filter = EVFILT_READ then
            match env.read_results with
            | [] => NextEventOutcome.blocked
            | Except.error code :: _ => NextEventOutcome.panicked code
            | Except.ok chars :: more =>
                next_event fuel { s2 with input_reader := { buffer := chars } }
                  { env with read_results := more }
          else if k.ident = AUDIO_QUEUE_PLAYBACK_STARTED ∧ k.filter = EVFILT_USER then
            NextEventOutcome.event Event.PlaybackStarted s2 env
          else if k.ident = AUDIO_QUEUE_PLAYBACK_FINISHED ∧ k.filter = EVFILT_USER then
            NextEventOutcome.event Event.PlaybackFinished s2 env
          else if k.ident = UI_TIMER_TICK ∧ k.filter = EVFILT_TIMER then
            NextEventOutcome.event Event.UITick s2 env
          else if k.ident = SIGWINCH ∧ k.filter = EVFILT_SIGNAL then
            NextEventOutcome.event Event.TerminalResized s2 env
          else next_event fuel s2 env
      | [] =>
          match env.kevent_results with
          | [] => NextEventOutcome.blocked
          | Except.error code :: _ => NextEventOutcome.panicked code
          | Except.ok delivered :: more =>
              next_event fuel { s with queue_reader := { buffer := delivered } }
                { env with kevent_results := more }

/-- ENOENT, the errno kqueue reports when asked to delete an event that is
not registered. -/
def ENOENT : Int := 2

/-- Kernel-side kqueue state relevant to the UI timer: whether a timer with
ident `UI_TIMER_TICK` is currently registered, and how many of its
expirations are pending delivery. -/
structure KqueueTimerState where
  timer_registered : Bool
  pending_ticks : Nat
deriving DecidableEq, Repr

/-- Modelled from the spec: the `kevent` syscall itself is outside src/
(src/ffi/kqueue.rs only declares it). Per the kqueue manual, `EV_DELETE`
removes the named event together with any pending occurrences, and fails
with ENOENT when no matching event is registered. -/
def kevent_delete_ui_timer (k : KqueueTimerState) :
    Except Int Unit × KqueueTimerState :=
  if k.timer_registered then
    (Except.ok (), { timer_registered := false, pending_ticks := 0 })
  else
    (Except.error ENOENT, k)

/-- `EventQueue::disable_ui_timer_event` (src/events.rs lines 105-132):
submits an `EV_DELETE` change for the UI timer and maps a negative syscall
result to `Err(last_os_error)`. -/
def disable_ui_timer_event (k : KqueueTimerState) :
    Except Int Unit × KqueueTimerState :=
  kevent_delete_ui_timer k

/-- The per-file local state of the control loop in `Afqueue::play_file`
(src/main.rs): the `timer_set`, `exit_requested` and `paused` flags. -/
structure LoopState where
  timer_set : Bool
  exit_requested : Bool
  paused : Bool
deriving DecidableEq, Repr

/-- Side effects the control loop performs on the player, the event queue
timer, the shared volume and the UI. -/
inductive ControlAction
  | playerResume
  | playerPause
  | playerStopSync
  | volumeDecrement
  | volumeIncrement
  | playerSetVolume
  | timerEnable
  | timerDisable
  | meterQuery
  | uiRedraw
deriving DecidableEq, Repr

/-- One iteration of the `'event_loop` match in `Afqueue::play_file`
(src/main.rs lines 156-219): the updated local state, the actions
performed, and whether the loop breaks. Fallible player/UI/timer calls are
modelled on their success path (an `Err` would exit `play_file` with that
error via `?`, which is outside this claim's event-driven control flow).
The event enum the loop matches on has no `PlaybackStarted` arm; that
variant is mapped to a no-op iteration here. -/
def loop_step (s : LoopState) (e : Event) : LoopState × List ControlAction × Bool :=
  match e with
  | Event.PauseKeyPressed =>
      if s.paused then
        ({ s with paused := false, timer_set := true },
         [ControlAction.playerResume, ControlAction.timerEnable], false)
      else
        ({ s with paused := true, timer_set := false },
         [ControlAction.playerPause, ControlAction.timerDisable], false)
  | Event.VolumeDownKeyPressed =>
      (s, [ControlAction.volumeDecrement, ControlAction.playerSetVolume], false)
  | Event.VolumeUpKeyPressed =>
      (s, [ControlAction.volumeIncrement, ControlAction.playerSetVolume], false)
  | Event.NextTrackKeyPressed =>
      (s, [ControlAction.playerStopSync], false)
  | Event.ExitKeyPressed =>
      ({ s with exit_requested := true }, [ControlAction.playerStopSync], false)
  | Event.PlaybackFinished =>
      (s, if s.timer_set then [ControlAction.timerDisable] else [], true)
  | Event.UITick =>
      ({ s with timer_set := true },
       [ControlAction.meterQuery, ControlAction.timerEnable], false)
  | Event.TerminalResized =>
      (s, [ControlAction.uiRedraw], false)
  | Event.PlaybackStarted =>
      (s, [], false)

/-- Run the `'event_loop` over a list of delivered events: `some` of the
final local state if the loop broke (only `PlaybackFinished` breaks), or
`none` with the events exhausted (the real loop would keep blocking in
`next_event`). Also returns the actions performed. -/
def play_events : LoopState → List Event → Option LoopState × List ControlAction
  | _, [] => (none, [])
  | s, e :: rest =>
      let step := loop_step s e
      if step.2.2 then (some step.1, step.2.1)
      else
        let next := play_events step.1 rest
        (next.1, step.2.1 ++ next.2)

/-- The local state at the top of `Afqueue::play_file`: the timer has just
been enabled, exit not requested, not paused. -/
def initial_loop_state : LoopState :=
  { timer_set := true, exit_requested := false, paused := false }

/-- `Afqueue::play_file` (src/main.rs lines 134-225) restricted to its
control flow: `some true` models returning `Break` (exit was requested),
`some false` models `Continue`, `none` models a loop that never saw
`PlaybackFinished`. -/
def play_file (events : List Event) : Option Bool × List ControlAction :=
  let r := play_events initial_loop_state events
  (r.1.map (fun s => s.exit_requested), r.2)

/-- The playlist loop of `play_audio_files` (src/main.rs lines 93-111):
keeps playing while each file returns `Continue`, stopping after the first
file that does not. Returns the per-file control-flow results observed.
Each element of `files` is the event sequence delivered during that file's
session. -/
def play_audio_files : List (List Event) → List (Option Bool)
  | [] => []
  | events :: rest =>
      let r := (play_file events).1
      if r = some false then r :: play_audio_files rest else [r]

/-- A concrete not-yet-finished handler used to instantiate theorems. -/
def sample_handler : AudioCallbackHandler :=
  { is_vbr := false, packets_per_buffer := 5, current_packet := 0, finished := false }

/-- The sample handler with `finished` latched. -/
def sample_finished_handler : AudioCallbackHandler :=
  { sample_handler with finished := true }

/-- Oracle for a call that reads 3 packets and enqueues successfully. -/
def sample_read3_env : BufferCallEnv :=
  { read_result := Except.ok 3, enqueue_result := Except.ok () }

/-- Oracle for a call whose read returns zero packets (end of file). -/
def sample_read0_env : BufferCallEnv :=
  { read_result := Except.ok 0, enqueue_result := Except.ok () }

/-- An event queue with both buffers drained. -/
def empty_event_queue : EventQueueState :=
  { input_reader := { buffer := [] }, queue_reader := { buffer := [] } }

/-- The kevent reporting stdin readiness. -/
def stdin_ready_kevent : Kevent := { ident := STDIN_FILE_NUM, filter := EVFILT_READ }

/-- The kevent reporting a UI timer expiry. -/
def ui_timer_kevent : Kevent := { ident := UI_TIMER_TICK, filter := EVFILT_TIMER }

/-- A kqueue with no UI timer registered. -/
def unarmed_timer_state : KqueueTimerState :=
  { timer_registered := false, pending_ticks := 0 }

/-! Theorems. Helper lemmas come first; each claim is settled by exactly one
theorem carrying the claim id in its doc comment. -/

/-- One fill call never moves the cursor backwards. -/
theorem handle_buffer_cursor_le (s : AudioCallbackHandler) (env : BufferCallEnv) :
    s.current_packet ≤ (handle_buffer s env).1.current_packet := by
  cases hf : s.finished with
  | true => simp [handle_buffer, hf]
  | false =>
    cases hr : env.read_result with
    | error code => simp [handle_buffer, hf, hr]
    | ok n =>
      by_cases hn : n = 0
      · simp [handle_buffer, hf, hr, hn]
      · cases he : env.enqueue_result with
        | ok u => simp [handle_buffer, hf, hr, hn, he]
        | error code => simp [handle_buffer, hf, hr, hn, he]

/-- A sequence of fill calls never moves the cursor backwards. -/
theorem run_buffer_calls_cursor_le (envs : List BufferCallEnv) (s : AudioCallbackHandler) :
    s.current_packet ≤ (run_buffer_calls s envs).1.current_packet := by
  induction envs generalizing s with
  | nil => exact le_refl _
  | cons env rest ih =>
      calc s.current_packet
          ≤ (handle_buffer s env).1.current_packet := handle_buffer_cursor_le s env
        _ ≤ (run_buffer_calls (handle_buffer s env).1 rest).1.current_packet := ih _
        _ = (run_buffer_calls s (env :: rest)).1.current_packet := rfl

/-- The cursor moves only in the successful-read, successful-enqueue branch,
and there by exactly the packets read. -/
theorem handle_buffer_cursor_change_characterisation (s : AudioCallbackHandler)
    (env : BufferCallEnv)
    (h : (handle_buffer s env).1.current_packet ≠ s.current_packet) :
    s.finished = false ∧ ∃ n : Nat, 0 < n ∧ env.read_result = Except.ok n ∧
      env.enqueue_result = Except.ok () ∧
      (handle_buffer s env).1.current_packet = s.current_packet + (n : Int) := by
  cases hf : s.finished with
  | true => exact absurd (by simp [handle_buffer, hf]) h
  | false =>
    cases hr : env.read_result with
    | error code => exact absurd (by simp [handle_buffer, hf, hr]) h
    | ok n =>
      by_cases hn : n = 0
      · exact absurd (by simp [handle_buffer, hf, hr, hn]) h
      · cases he : env.enqueue_result with
        | ok u =>
            cases u
            refine ⟨rfl, n, Nat.pos_of_ne_zero hn, rfl, rfl, ?_⟩
            simp [handle_buffer, hf, hr, hn, he]
        | error code => exact absurd (by simp [handle_buffer, hf, hr, hn, he]) h

/-- C1: for every handler whose `finished` flag is true, every subsequent
`handle_buffer` call is a no-op — no file read, no resubmission attempt, no
stop request, and the packet cursor and all other handler state unchanged —
for any number of subsequent calls. -/
theorem finished_fill_calls_are_noops (s : AudioCallbackHandler)
    (envs : List BufferCallEnv) (h : s.finished = true) :
    run_buffer_calls s envs = (s, []) := by
  induction envs with
  | nil => rfl
  | cons env rest ih => simp [run_buffer_calls, handle_buffer, h, ih]

theorem finished_fill_calls_are_noops_witness :
    sample_finished_handler.finished = true ∧
    run_buffer_calls sample_finished_handler [sample_read3_env, sample_read0_env] =
      (sample_finished_handler, []) :=
  ⟨rfl, finished_fill_calls_are_noops sample_finished_handler
      [sample_read3_env, sample_read0_env] rfl⟩

/-- C2: over any sequence of fill calls the packet cursor is non-decreasing;
it advances exactly when a non-finished call reads a positive number of
packets and resubmits successfully, and then by exactly the packets read; it
never advances after a zero-packet read or after a failed resubmission
(including the enqueue-during-reset error). -/
theorem cursor_monotone_and_exact :
    (∀ (s : AudioCallbackHandler) (envs : List BufferCallEnv),
        s.current_packet ≤ (run_buffer_calls s envs).1.current_packet) ∧
    (∀ (s : AudioCallbackHandler) (env : BufferCallEnv) (n : Nat),
        s.finished = false → env.read_result = Except.ok n → 0 < n →
        env.enqueue_result = Except.ok () →
        (handle_buffer s env).1.current_packet = s.current_packet + (n : Int)) ∧
    (∀ (s : AudioCallbackHandler) (env : BufferCallEnv),
        env.read_result = Except.ok 0 →
        (handle_buffer s env).1.current_packet = s.current_packet) ∧
    (∀ (s : AudioCallbackHandler) (env : BufferCallEnv) (n : Nat) (code : Int),
        env.read_result = Except.ok n → env.enqueue_result = Except.error code →
        (handle_buffer s env).1.current_packet = s.current_packet) ∧
    (∀ (s : AudioCallbackHandler) (env : BufferCallEnv),
        (handle_buffer s env).1.current_packet ≠ s.current_packet →
        s.finished = false ∧ ∃ n : Nat, 0 < n ∧ env.read_result = Except.ok n ∧
          env.enqueue_result = Except.ok () ∧
          (handle_buffer s env).1.current_packet = s.current_packet + (n : Int)) := by
  refine ⟨fun s envs => run_buffer_calls_cursor_le envs s, ?_, ?_, ?_,
    fun s env => handle_buffer_cursor_change_characterisation s env⟩
  · intro s env n hf hr hn he
    simp [handle_buffer, hf, hr, he, Nat.pos_iff_ne_zero.mp hn]
  · intro s env hr
    cases hf : s.finished with
    | true => simp [handle_buffer, hf]
    | false => simp [handle_buffer, hf, hr]
  · intro s env n code hr he
    cases hf : s.finished with
    | true => simp [handle_buffer, hf]
    | false =>
      by_cases hn : n = 0
      · simp [handle_buffer, hf, hr, hn]
      · simp [handle_buffer, hf, hr, hn, he]

theorem cursor_monotone_and_exact_witness :
    (handle_buffer sample_handler sample_read3_env).1.current_packet =
      sample_handler.current_packet + (3 : Int) ∧
    sample_handler.current_packet ≤
      (run_buffer_calls sample_handler [sample_read3_env]).1.current_packet :=
  ⟨cursor_monotone_and_exact.2.1 sample_handler sample_read3_env 3 rfl rfl
      (by decide) rfl,
   cursor_monotone_and_exact.1 sample_handler [sample_read3_env]⟩

/-- C3: a fill call whose read returns zero packets while `finished` is false
latches `finished`, leaves the cursor unchanged, attempts no resubmission,
and requests exactly one asynchronous (non-immediate) stop on that call. -/
theorem zero_read_latches_and_stops_once (s : AudioCallbackHandler)
    (env : BufferCallEnv) (hf : s.finished = false)
    (hr : env.read_result = Except.ok 0) :
    (handle_buffer s env).1 = { s with finished := true } ∧
    (handle_buffer s env).1.current_packet = s.current_packet ∧
    (handle_buffer s env).2 =
      [QueueAction.fileRead s.current_packet s.packets_per_buffer s.is_vbr,
       QueueAction.stop false] ∧
    (handle_buffer s env).2.count (QueueAction.stop false) = 1 ∧
    QueueAction.enqueueAttempt ∉ (handle_buffer s env).2 ∧
    QueueAction.stop true ∉ (handle_buffer s env).2 := by
  have hb : handle_buffer s env =
      ({ s with finished := true },
       [QueueAction.fileRead s.current_packet s.packets_per_buffer s.is_vbr,
        QueueAction.stop false]) := by
    simp [handle_buffer, hf, hr]
  rw [hb]
  refine ⟨rfl, rfl, rfl, ?_, ?_, ?_⟩
  · simp [List.count_cons]
  · simp
  · simp

theorem zero_read_latches_and_stops_once_witness :
    (handle_buffer sample_handler sample_read0_env).1.finished = true ∧
    (handle_buffer sample_handler sample_read0_env).1.current_packet =
      sample_handler.current_packet := by
  have h := zero_read_latches_and_stops_once sample_handler sample_read0_env rfl rfl
  exact ⟨by rw [h.1], h.2.1⟩

/-- C4: the claim requires that a failed run-state property read is surfaced
without panicking the engine callback thread; the code instead hits the
`Err(error) => panic!` arm, so the handler evaluates to the panicked outcome
on any failed read. -/
theorem run_state_read_error_panics :
    handle_running_state_change (Except.error (-50)) true = RunStateOutcome.panicked := rfl

/-- C5: the claim requires that an I/O failure of the kqueue wait propagates
as an error out of `next_event`; the code instead panics inside
`KQueueReader::read` (first conjunct: the outcome is a panic, and
`next_event` has no error channel to its caller at all). A stdin read that
returns zero bytes is treated as normal: the loop keeps blocking and yields
the next real event (second conjunct). -/
theorem next_event_wait_failure_vs_zero_byte_read :
    next_event 5 empty_event_queue
      { kevent_results := [Except.error (-9)], read_results := [] } =
      NextEventOutcome.panicked (-9) ∧
    next_event 9 empty_event_queue
      { kevent_results := [Except.ok [stdin_ready_kevent], Except.ok [ui_timer_kevent]],
        read_results := [Except.ok []] } =
      NextEventOutcome.event Event.UITick empty_event_queue
        { kevent_results := [], read_results := [] } :=
  ⟨rfl, rfl⟩

/-- C6 counterexample: calling `disable_ui_timer_event` with no timer armed
returns an error (kqueue rejects `EV_DELETE` of an unregistered event with
ENOENT), refuting the claim that the call does not error. -/
theorem disable_ui_timer_unarmed_errors :
    (disable_ui_timer_event unarmed_timer_state).1 = Except.error ENOENT := rfl

/-- C6 amended: calling `disable_ui_timer_event` when no timer is armed
returns an ENOENT error and leaves the kqueue state unchanged, and no call
to it ever adds a pending `UITick`; the control loop guards the call with
its `timer_set` flag. -/
theorem disable_ui_timer_unarmed_behaviour (k : KqueueTimerState)
    (h : k.timer_registered = false) :
    disable_ui_timer_event k = (Except.error ENOENT, k) ∧
    (∀ k2 : KqueueTimerState,
      (disable_ui_timer_event k2).2.pending_ticks ≤ k2.pending_ticks) := by
  constructor
  · simp [disable_ui_timer_event, kevent_delete_ui_timer, h]
  · intro k2
    by_cases h2 : k2.timer_registered = true
    · simp [disable_ui_timer_event, kevent_delete_ui_timer, h2]
    · simp only [Bool.not_eq_true] at h2
      simp [disable_ui_timer_event, kevent_delete_ui_timer, h2]

theorem disable_ui_timer_unarmed_behaviour_witness :
    disable_ui_timer_event { timer_registered := false, pending_ticks := 3 } =
      (Except.error ENOENT, { timer_registered := false, pending_ticks := 3 }) :=
  (disable_ui_timer_unarmed_behaviour
    { timer_registered := false, pending_ticks := 3 } rfl).1

/-- C7 counterexample: two observations of the stopped run-state within one
session signal `PlaybackFinished` twice, refuting the claim that the handler
signals it exactly once per stop even when the listener observes the
not-running state more than once. -/
theorem playback_finished_double_signal :
    (run_state_signals [Except.ok 0, Except.ok 0]).count Event.PlaybackFinished = 2 := by
  decide

/-- C7 amended: the run-state handler has no per-session already-notified
latch; it signals `PlaybackFinished` once per observation of the stopped
run-state, so a session signals it exactly as many times as the listener
observes the not-running state. -/
theorem playback_finished_once_per_stopped_observation (observations : List Nat) :
    (run_state_signals (observations.map Except.ok)).count Event.PlaybackFinished =
      observations.count AUDIO_QUEUE_RUN_STATE_STOPPED := by
  induction observations with
  | nil => rfl
  | cons n rest ih =>
      by_cases hn : n = AUDIO_QUEUE_RUN_STATE_STOPPED
      · simp [run_state_signals, handle_running_state_change, hn, List.count_cons, ih]
      · simp [run_state_signals, handle_running_state_change, hn, List.count_cons, ih]

/-- The volume step count stays within `0..=MAX_VOLUME` under any operation
sequence, starting from any in-range value. -/
theorem apply_volume_ops_le (ops : List VolumeOp) (v : PlaybackVolume)
    (h : v.volume ≤ MAX_VOLUME) :
    (apply_volume_ops v ops).volume ≤ MAX_VOLUME := by
  induction ops generalizing v with
  | nil => exact h
  | cons op rest ih =>
      cases op with
      | increment =>
          refine ih _ ?_
          exact min_le_right _ _
      | decrement =>
          refine ih _ ?_
          exact max_le (le_trans (Nat.sub_le _ _) h) (Nat.zero_le _)

/-- An in-range step count yields a gain in the unit interval. -/
theorem gain_bounds (v : PlaybackVolume) (h : v.volume ≤ MAX_VOLUME) :
    0 ≤ v.gain ∧ v.gain ≤ 1 := by
  constructor
  · exact div_nonneg (Nat.cast_nonneg _) (by norm_num [MAX_VOLUME])
  · rw [PlaybackVolume.gain, div_le_one (by norm_num [MAX_VOLUME])]
    exact_mod_cast h

/-- C8: starting from `PlaybackVolume::new`, any sequence of increments and
decrements keeps the step count saturated within `0..=MAX_VOLUME` (no wrap,
no error), the gain always lies in `[0, 1]` so the `set_volume` range
assertions never fire, and any number of increments from the minimum reaches
at most the maximum. -/
theorem volume_saturates_and_gain_bounded :
    (∀ ops : List VolumeOp,
        (apply_volume_ops PlaybackVolume.new ops).volume ≤ MAX_VOLUME) ∧
    (∀ ops : List VolumeOp,
        set_volume_assertions_hold (apply_volume_ops PlaybackVolume.new ops)) ∧
    (∀ n : Nat,
        (apply_volume_ops { volume := 0 }
          (List.replicate n VolumeOp.increment)).volume ≤ MAX_VOLUME) :=
  ⟨fun ops => apply_volume_ops_le ops _ (le_refl _),
   fun ops => gain_bounds _ (apply_volume_ops_le ops _ (le_refl _)),
   fun _ => apply_volume_ops_le _ _ (Nat.zero_le _)⟩

/-- Only `PlaybackFinished` breaks the per-file event loop. -/
theorem loop_step_breaks_iff (s : LoopState) (e : Event) :
    (loop_step s e).2.2 = true ↔ e = Event.PlaybackFinished := by
  cases e <;> by_cases hp : s.paused <;> simp [loop_step, hp]

/-- A loop iteration records exit exactly when the event is the exit key. -/
theorem loop_step_exit_requested (s : LoopState) (e : Event) :
    ((loop_step s e).1).exit_requested =
      (s.exit_requested || decide (e = Event.ExitKeyPressed)) := by
  cases e <;> by_cases hp : s.paused <;> simp [loop_step, hp]

/-- The per-file loop breaks exactly when a `PlaybackFinished` is
delivered. -/
theorem play_events_some_iff (evs : List Event) (s : LoopState) :
    ((play_events s evs).1).isSome = true ↔ Event.PlaybackFinished ∈ evs := by
  induction evs generalizing s with
  | nil => simp [play_events]
  | cons e rest ih =>
      by_cases he : e = Event.PlaybackFinished
      · subst he; simp [play_events, loop_step]
      · have hb : (loop_step s e).2.2 = false := by
          rcases Bool.eq_false_or_eq_true (loop_step s e).2.2 with h | h
          · exact absurd ((loop_step_breaks_iff s e).1 h) he
          · exact h
        have he2 : ¬(Event.PlaybackFinished = e) := fun hx => he hx.symm
        simp [play_events, hb, ih, he, he2]

/-- When the loop breaks, exit stands recorded iff it was recorded initially
or the exit key arrived before the first `PlaybackFinished`. -/
theorem play_events_exit_iff (evs : List Event) (s t : LoopState)
    (h : (play_events s evs).1 = some t) :
    (t.exit_requested = true ↔
      (s.exit_requested = true ∨
       Event.ExitKeyPressed ∈
         evs.takeWhile (fun e => !(e == Event.PlaybackFinished)))) := by
  induction evs generalizing s with
  | nil => simp [play_events] at h
  | cons e rest ih =>
      by_cases he : e = Event.PlaybackFinished
      · subst he
        have hps : (play_events s (Event.PlaybackFinished :: rest)).1 = some s := rfl
        rw [hps] at h
        obtain rfl : s = t := Option.some_inj.mp h
        simp [List.takeWhile_cons]
      · have hb : (loop_step s e).2.2 = false := by
          rcases Bool.eq_false_or_eq_true (loop_step s e).2.2 with hx | hx
          · exact absurd ((loop_step_breaks_iff s e).1 hx) he
          · exact hx
        have h2 : (play_events (loop_step s e).1 rest).1 = some t := by
          simpa [play_events, hb] using h
        have hrec := ih (loop_step s e).1 h2
        rw [loop_step_exit_requested] at hrec
        simp only [Bool.or_eq_true, decide_eq_true_eq] at hrec
        rw [hrec]
        have hbe : (e == Event.PlaybackFinished) = false :=
          beq_eq_false_iff_ne.mpr he
        simp only [List.takeWhile_cons, hbe, Bool.not_false, if_true, List.mem_cons]
        constructor
        · rintro ((hx | hx) | hx)
          · exact Or.inl hx
          · exact Or.inr (Or.inl hx.symm)
          · exact Or.inr (Or.inr hx)
        · rintro (hx | (hx | hx))
          · exact Or.inl (Or.inl hx)
          · exact Or.inl (Or.inr hx.symm)
          · exact Or.inr hx

/-- C9: in the per-file event loop, `ExitKeyPressed` performs a synchronous
stop and records exit but never breaks the loop; the loop breaks exactly on
`PlaybackFinished`; `play_file` returns `Break` exactly when the exit key
arrived before that file's `PlaybackFinished`; and the playlist loop stops
after a `Break` file and continues past a `Continue` file. -/
theorem control_loop_exit_semantics :
    (∀ s : LoopState, loop_step s Event.ExitKeyPressed =
        ({ s with exit_requested := true }, [ControlAction.playerStopSync], false)) ∧
    (∀ (s : LoopState) (evs : List Event),
        ((play_events s evs).1).isSome = true ↔ Event.PlaybackFinished ∈ evs) ∧
    (∀ evs : List Event, (play_file evs).1 = some true ↔
        (Event.PlaybackFinished ∈ evs ∧
         Event.ExitKeyPressed ∈
           evs.takeWhile (fun e => !(e == Event.PlaybackFinished)))) ∧
    (∀ (f : List Event) (rest : List (List Event)),
        (play_file f).1 = some true → play_audio_files (f :: rest) = [some true]) ∧
    (∀ (f : List Event) (rest : List (List Event)),
        (play_file f).1 = some false →
        play_audio_files (f :: rest) = some false :: play_audio_files rest) := by
  refine ⟨fun s => rfl, fun s evs => play_events_some_iff evs s, ?_, ?_, ?_⟩
  · intro evs
    constructor
    · intro h
      simp only [play_file, Option.map_eq_some'] at h
      obtain ⟨t, ht, hexit⟩ := h
      have hmem : Event.PlaybackFinished ∈ evs := by
        rw [← play_events_some_iff evs initial_loop_state]
        simp [ht]
      have hiff := play_events_exit_iff evs initial_loop_state t ht
      refine ⟨hmem, ?_⟩
      have := hiff.1 hexit
      simpa [initial_loop_state] using this
    · rintro ⟨hmem, hexit⟩
      have hsome : ((play_events initial_loop_state evs).1).isSome = true :=
        (play_events_some_iff evs initial_loop_state).2 hmem
      obtain ⟨t, ht⟩ := Option.isSome_iff_exists.1 hsome
      have hiff := play_events_exit_iff evs initial_loop_state t ht
      have hexit2 : t.exit_requested = true := hiff.2 (Or.inr hexit)
      simp [play_file, ht, hexit2]
  · intro f rest h
    simp [play_audio_files, h]
  · intro f rest h
    simp [play_audio_files, h]

theorem control_loop_exit_semantics_witness :
    play_audio_files
      ([Event.ExitKeyPressed, Event.PlaybackFinished] :: [[Event.PlaybackFinished]]) =
      [some true] ∧
    play_audio_files ([Event.PlaybackFinished] :: [[Event.PlaybackFinished]]) =
      some false :: play_audio_files [[Event.PlaybackFinished]] :=
  ⟨control_loop_exit_semantics.2.2.2.1 [Event.ExitKeyPressed, Event.PlaybackFinished]
      [[Event.PlaybackFinished]] (by decide),
   control_loop_exit_semantics.2.2.2.2 [Event.PlaybackFinished]
      [[Event.PlaybackFinished]] (by decide)⟩

/-- C10: a successful `get_meter_level` returns a two-entry pair; with
exactly one channel of average power `p` both entries are `p`, and with two
or more channels the entries are the average powers of the first two
channels. -/
theorem get_meter_level_channels :
    (∀ p : ℚ, get_meter_level [p] = (p, p)) ∧
    (∀ (p1 p2 : ℚ) (rest : List ℚ), get_meter_level (p1 :: p2 :: rest) = (p1, p2)) :=
  ⟨fun _ => rfl, fun _ _ _ => rfl⟩

end Afqueue
